import Mathlib

/-!
# Verification of the `dashboard-api-tools` request layer

Shallow embedding of `src/apiUtils.ts` (request core, metadata extraction,
pagination) and of the action-batch helpers (`batchedApiRequest`,
`pollActionBatch`), together with proofs of the specified properties.

Modelling conventions:
* JSON values are the inductive `JsonVal`; `.json()` on a response is
  modelled as a field `body : Option JsonVal` (`none` = the body is not
  parseable as JSON, so `await response.json()` throws).
* JavaScript truthiness is modelled explicitly where the source relies on
  it (`x || y`, `if (x)`).
* `fetch` is modelled as an oracle `Nat → Response` giving the response to
  the n-th attempt; randomness (`Math.random()`) is an oracle
  `Nat → ℚ`; wall-clock time (`Date.now()`) is explicit state advanced by
  `sleep` and by per-request durations.
* Loops of the source are embedded structurally on a fuel argument that is
  at least the number of iterations the source's own bound permits, so that
  all definitions compute.
-/

set_option autoImplicit false

namespace DashboardApiTools

/-- JSON values (numbers restricted to integers, which covers every body the
claims mention). -/
inductive JsonVal where
  | null
  | bool (b : Bool)
  | num (n : Int)
  | str (s : String)
  | arr (elems : List JsonVal)
  | obj (fields : List (String × JsonVal))


/-- JavaScript truthiness of a JSON value (`NaN` cannot arise for integer
numbers; arrays and objects are always truthy). -/
def JsonVal.truthy : JsonVal → Bool
  | .null => false
  | .bool b => b
  | .num n => n != 0
  | .str s => s != ""
  | .arr _ => true
  | .obj _ => true

/-- `v?.errors` of JavaScript: property lookup with optional chaining.
On anything but an object (including `null`) the result is `undefined`,
modelled as `none`. -/
def JsonVal.getErrors : JsonVal → Option JsonVal
  | .obj fields => (fields.find? (fun p => p.1 = "errors")).map (fun p => p.2)
  | _ => none

/-- The transport `Response` at the interface the request core consumes:
status, status text, the result of `.json()` and the two headers read via
`headers.get`. `none` for a header means the header is absent
(`headers.get` returned `null`). -/
structure Response where
  status : Nat
  statusText : String
  body : Option JsonVal
  linkHeader : Option String
  retryAfterHeader : Option String


/-- `Response.ok` of the fetch API: status in the range 200–299. -/
def Response.ok (r : Response) : Bool :=
  decide (200 ≤ r.status ∧ r.status < 300)

/-! ## Link-header parsing (`extractUrlFromLinkHeader`) -/

/-- One token of a `Link` header, matched against the source's regular
expression `^<([^>]+)>; rel=(.+)$`: a `<`, then one or more non-`>`
characters (the url), then the literal `>; rel=`, then one or more
characters none of which is a line terminator (the rel).  Returns
`some (url, rel)` on a match, `none` otherwise (in the source, a
non-matching token yields `undefined` in the mapped list). -/
def matchRelSuffix : List Char → Option (List Char)
  | '>' :: ';' :: ' ' :: 'r' :: 'e' :: 'l' :: '=' :: relChars => some relChars
  | _ => none

def matchLinkTokenChars : List Char → Option (String × String)
  | '<' :: rest =>
    let url := rest.takeWhile (fun c => c ≠ '>')
    if url.isEmpty then none
    else
      match matchRelSuffix (rest.dropWhile (fun c => c ≠ '>')) with
      | some relChars =>
        if relChars.isEmpty ∨ relChars.any (fun c => c = '\n' ∨ c = '\r') then none
        else some (⟨url⟩, ⟨relChars⟩)
      | none => none
  | _ => none

def matchLinkToken (s : String) : Option (String × String) :=
  matchLinkTokenChars s.toList

/-- JavaScript `s.split(sep)` for a non-empty string separator: scan left
to right, cutting at each (non-overlapping) occurrence of `sep`.  The
fuel starts at the length of the scanned list and every step consumes at
least one character, so the fuel never runs out and the definition is
structural (hence computable in the kernel). -/
def splitOnCharsAux (sep : List Char) : Nat → List Char → List Char → List (List Char)
  | _, acc, [] => [acc.reverse]
  | 0, acc, s => [acc.reverse ++ s]
  | fuel + 1, acc, c :: rest =>
    if sep.isPrefixOf (c :: rest) ∧ sep ≠ [] then
      acc.reverse :: splitOnCharsAux sep fuel [] ((c :: rest).drop sep.length)
    else
      splitOnCharsAux sep fuel (c :: acc) rest

/-- `s.split(sep)` on strings. -/
def jsSplit (s sep : String) : List String :=
  (splitOnCharsAux sep.toList s.toList.length [] s.toList).map (fun l => ⟨l⟩)

/-- `extractUrlFromLinkHeader` of `apiUtils.ts`: split the header on `", "`,
match each token against the regex, keep `{url, rel}` for matches
(`undefined` otherwise), find the first entry whose `rel` equals
`targetRel` and return its url, else `null`.  The leading `!linkHeader`
truthiness guard makes the empty string behave as an absent header. -/
def extractUrlFromLinkHeader (linkHeader : String) (targetRel : String) : Option String :=
  if linkHeader = "" then none
  else
    let links := (jsSplit linkHeader ", ").map matchLinkToken
    match links.find? (fun l =>
        match l with
        | some p => p.2 = targetRel
        | none => false) with
    | some (some p) => some p.1
    | _ => none

/-! ## `parseInt` and `Retry-After` -/

/-- `parseInt(s, 10)` of JavaScript: skip leading whitespace, read an
optional sign, then the maximal run of decimal digits; `none` models
`NaN` (no digits at all). Trailing garbage after the digits is ignored. -/
def parseIntBase10 (s : String) : Option Int :=
  let cs := s.toList.dropWhile (fun c =>
    c = ' ' ∨ c = '\t' ∨ c = '\n' ∨ c = '\r')
  let signAndRest : Int × List Char :=
    match cs with
    | '-' :: rest => (-1, rest)
    | '+' :: rest => (1, rest)
    | _ => (1, cs)
  let digits := signAndRest.2.takeWhile Char.isDigit
  if digits.isEmpty then none
  else
    some (signAndRest.1 *
      (digits.foldl (fun acc c => acc * 10 + (c.toNat - '0'.toNat)) (0 : Nat) : Nat))

/-- The success-side metadata record (`ApiMetadata` of `apiUtils.ts`).
`errors` and `ok` are kept as ordinary fields so that the values the code
actually writes into them are provable facts, not typing artefacts. -/
structure ApiMetadata where
  firstPageUrl : Option String
  lastPageUrl : Option String
  nextPageUrl : Option String
  prevPageUrl : Option String
  linkHeader : Option String
  retryAfter : Option Int
  errors : Option (List String)
  ok : Bool
  statusCode : Nat
  statusText : String


/-- `extractCustomHeaders` of `apiUtils.ts`.  `retryAfterHeader ? parseInt(...)
: null` followed by `parsedRetryHeader || null`: an absent or empty header
gives `null`, and a parse result that is falsy (`NaN` or `0`) also gives
`null`.  The four pagination URLs are derived from the `Link` header only
when that header is truthy (present and non-empty). -/
def extractCustomHeaders (response : Response) : ApiMetadata :=
  let linkHeader := response.linkHeader
  let parsedRetryHeader : Option Int :=
    match response.retryAfterHeader with
    | some h => if h ≠ "" then parseIntBase10 h else none
    | none => none
  let linkUrl : String → Option String := fun targetRel =>
    match linkHeader with
    | some h => if h ≠ "" then extractUrlFromLinkHeader h targetRel else none
    | none => none
  { statusCode := response.status
    statusText := response.statusText
    errors := none
    ok := true
    retryAfter :=
      match parsedRetryHeader with
      | some n => if n = 0 then none else some n
      | none => none
    firstPageUrl := linkUrl "first"
    prevPageUrl := linkUrl "prev"
    nextPageUrl := linkUrl "next"
    lastPageUrl := linkUrl "last"
    linkHeader := linkHeader }

/-! ## Success and failure envelopes -/

/-- `ApiResponse<ResponseData>` of `apiUtils.ts`: the metadata together with
the parsed body. -/
structure ApiResponse (D : Type) extends ApiMetadata where
  data : D


/-- `successResponse` of `apiUtils.ts`: parse the body, substituting `{}`
when `.json()` throws, and attach the extracted metadata. -/
def successResponse (response : Response) : ApiResponse JsonVal :=
  let responseData : JsonVal :=
    match response.body with
    | some j => j
    | none => .obj []
  { extractCustomHeaders response with data := responseData }

/-- The raw value `failureResponse` rejects with.  Its `errors` field holds
whatever JavaScript value the computation produced (the rejection is
untyped at runtime), so that the string-array invariant is a provable
property rather than a typing assumption. -/
structure RawReject where
  errors : JsonVal
  statusCode : Nat
  statusText : String
  ok : Bool


/-- `failureResponse` of `apiUtils.ts`: `errorData?.errors || []` when the
body parses, the parse-failure sentinel when it does not, plus the
response's status code, status text and `ok` flag. -/
def failureResponse (response : Response) : RawReject :=
  let errors : JsonVal :=
    match response.body with
    | some errorData =>
      match errorData.getErrors with
      | some v => if v.truthy then v else .arr []
      | none => .arr []
    | none => .arr [.str "Could not parse errors from response"]
  { errors := errors
    statusCode := response.status
    statusText := response.statusText
    ok := response.ok }

/-! ## Request building (`apiRequest`, lines 115–139) -/

/-- The `auth` part of `Options`. -/
structure Auth where
  apiKey : Option String
  csrfToken : Option String

/-- `RequestInit`-level overrides supplied through `options.fetchOptions`.
Each field is `some` exactly when the caller's object has that own key, so
that the JavaScript spread `{...defaults, ...options?.fetchOptions}` is a
per-present-field override. -/
structure FetchOverrides where
  method : Option String := none
  headers : Option (List (String × String)) := none
  redirect : Option String := none
  referrerPolicy : Option String := none
  body : Option JsonVal := none

/-- `Options` of `apiUtils.ts`. -/
structure Options where
  fetchOptions : Option FetchOverrides := none
  auth : Option Auth := none

/-- The fully-built `RequestInit` passed to `fetch`.  A body of `none`
means no `body` key was set; `JSON.stringify` is kept symbolic (the body
is stored as the JSON value being serialized). -/
structure RequestInit where
  method : String
  headers : List (String × String)
  redirect : String
  referrerPolicy : String
  body : Option JsonVal

/-- Setting one key of a JavaScript object literal: an existing key keeps
its position and gets the new value, a new key is appended. -/
def objSet (l : List (String × String)) (kv : String × String) : List (String × String) :=
  if l.any (fun p => p.1 = kv.1) then
    l.map (fun p => if p.1 = kv.1 then (p.1, kv.2) else p)
  else l ++ [kv]

/-- `{...l, ...m}` on string-valued objects: entries of `m` are set over
`l` in order. -/
def objSpread (l m : List (String × String)) : List (String × String) :=
  m.foldl objSet l

/-- The `authHeaders` object of `apiRequest`: `X-CSRF-TOKEN` is added when
`options?.auth?.csrfToken` is truthy (present and non-empty), then
`X-Cisco-Meraki-API-Key` when `options?.auth?.apiKey` is truthy. -/
def authHeadersOf (options : Option Options) : List (String × String) :=
  match options with
  | none => []
  | some o =>
    match o.auth with
    | none => []
    | some a =>
      (match a.csrfToken with
       | some t => if t ≠ "" then [("X-CSRF-TOKEN", t)] else []
       | none => []) ++
      (match a.apiKey with
       | some k => if k ≠ "" then [("X-Cisco-Meraki-API-Key", k)] else []
       | none => [])

/-- Lines 115–139 of `apiUtils.ts`: the defaults (method, json headers with
the auth headers spread in, redirect and referrer policy), overridden per
present key by `options?.fetchOptions`, and finally `fetchOptions.body`
assigned from `data` when `data` is defined (this assignment happens after
the spread, so it wins over a body override). -/
def buildFetchOptions (method : String) (data : Option JsonVal)
    (options : Option Options) : RequestInit :=
  let defaults : RequestInit :=
    { method := method
      headers := objSpread
        [("Content-Type", "application/json"), ("Accept", "application/json")]
        (authHeadersOf options)
      redirect := "follow"
      referrerPolicy := "strict-origin-when-cross-origin"
      body := none }
  let merged : RequestInit :=
    match options with
    | none => defaults
    | some o =>
      match o.fetchOptions with
      | none => defaults
      | some fo =>
        { method := fo.method.getD defaults.method
          headers := fo.headers.getD defaults.headers
          redirect := fo.redirect.getD defaults.redirect
          referrerPolicy := fo.referrerPolicy.getD defaults.referrerPolicy
          body := fo.body }
  match data with
  | some d => { merged with body := some d }
  | none => merged

/-! ## The 429 retry loop (`apiRequest`, lines 133–151)

`fetch` is an oracle `Nat → Response` (the response to the n-th attempt,
counting from 0) and `Math.random()` an oracle `Nat → ℚ` (the jitter drawn
before the n-th retry).  The loop runs while the status is 429 and
`attempt < totalRetries` with `totalRetries = 5`; the fuel argument starts
at 5 ≥ the number of remaining iterations, so the definition is structural
and computes. -/

/-- The backoff the source computes before a retry:
`extractCustomHeaders(response).retryAfter || 1.5 ** (attempt + 1)`
seconds (the JavaScript `||` falls through on `null`; a non-null
`retryAfter` is never 0 by construction of `extractCustomHeaders`). -/
def retryBaseDelay (response : Response) (attempt : Nat) : ℚ :=
  match (extractCustomHeaders response).retryAfter with
  | some n => (n : ℚ)
  | none => (3 / 2 : ℚ) ^ (attempt + 1)

/-- One unfolding of the `while` loop.  Returns the final response, the
final value of `attempt` (= number of retries performed) and the list of
waits, in seconds, in the order they were slept. -/
def retryLoop (oracle : Nat → Response) (jitter : Nat → ℚ) :
    Nat → Nat → Response → Response × Nat × List ℚ
  | 0, attempt, response => (response, attempt, [])
  | fuel + 1, attempt, response =>
    if response.status = 429 ∧ attempt < 5 then
      let retrySec := retryBaseDelay response attempt
      let rest := retryLoop oracle jitter fuel (attempt + 1) (oracle (attempt + 1))
      (rest.1, rest.2.1, (retrySec + jitter attempt) :: rest.2.2)
    else (response, attempt, [])

/-- `apiRequest` of `apiUtils.ts`, with the network and randomness as
oracles.  Returns the settled promise (`Except` failure = rejection), the
total number of `fetch` calls made, and the list of backoff waits in
seconds.  The initial fetch is attempt 0; the loop's fuel is
`totalRetries = 5`. -/
def apiRequest (oracle : Nat → Response) (jitter : Nat → ℚ) :
    Except RawReject (ApiResponse JsonVal) × Nat × List ℚ :=
  let res := retryLoop oracle jitter 5 0 (oracle 0)
  let response := res.1
  (if response.ok then .ok (successResponse response)
   else .error (failureResponse response),
   res.2.1 + 1, res.2.2)

/-! ## Error classifier (`isApiError`) -/

/-- `ApiError` of `apiUtils.ts` as a runtime value: `ok` is a `Bool` field
(the source writes non-literal booleans into it through
`makeFailResponseObj`). -/
structure ApiError where
  errors : List String
  ok : Bool
  statusCode : Nat
  statusText : String

/-- `isApiError` restricted to values already typed as `ApiError`: the
`Array.isArray`/`typeof` checks hold by typing, leaving `ok === false`. -/
def ApiError.isApiError (e : ApiError) : Bool :=
  e.ok = false

/-! ## Paginator (`makePaginatedRequest`, `paginatedApiRequest`) -/

/-- `ApiRequestParams` of `apiUtils.ts`. -/
structure ApiRequestParams where
  method : String
  url : String
  data : Option JsonVal := none
  options : Option Options := none

/-- The observable events of a paginated run, in order: each `apiRequest`
call (with the exact arguments passed), each `dataHandler` invocation,
each `errorHandler` invocation, and the `throw new Error(...)` branch for
unclassified rejections. -/
inductive PagEvent (D : Type) where
  | call (method url : String) (data : Option JsonVal) (options : Option Options)
  | dataOut (d : D)
  | errorOut (errs : List String)
  | thrown

/-- `makePaginatedRequest` of `apiUtils.ts`, parametrised over `apiRequest`
as a black box `api method url data options` (returning the settled
promise).  The recursion `requestCount → requestCount + 1` is bounded by
`maxRequests`, so fuel `maxRequests - requestCount` makes it structural;
the guard `requestCount ≥ maxRequests` is kept verbatim.  The source calls
`apiRequest(method, url)`, so `data := none` and `options := none` are
passed regardless of `apiRequestParams.data` / `.options`. -/
def makePaginatedRequestAux {D : Type}
    (api : String → String → Option JsonVal → Option Options →
      Except ApiError (ApiResponse D)) :
    Nat → ApiRequestParams → Nat → Nat → List (PagEvent D)
  | 0, _, _, _ => []
  | fuel + 1, apiRequestParams, maxRequests, requestCount =>
    if requestCount ≥ maxRequests then []
    else
      match api apiRequestParams.method apiRequestParams.url none none with
      | .error badResponse =>
        .call apiRequestParams.method apiRequestParams.url none none ::
          (if badResponse.isApiError then [.errorOut badResponse.errors] else [.thrown])
      | .ok apiResp =>
        .call apiRequestParams.method apiRequestParams.url none none ::
          .dataOut apiResp.data ::
          (match apiResp.nextPageUrl with
           | some nextPageUrl =>
             makePaginatedRequestAux api fuel
               { apiRequestParams with url := nextPageUrl } maxRequests (requestCount + 1)
           | none => [])

/-- `makePaginatedRequest` entry: fuel is exactly the number of requests
the guard still permits. -/
def makePaginatedRequest {D : Type}
    (api : String → String → Option JsonVal → Option Options →
      Except ApiError (ApiResponse D))
    (apiRequestParams : ApiRequestParams) (maxRequests requestCount : Nat) :
    List (PagEvent D) :=
  makePaginatedRequestAux api (maxRequests - requestCount) apiRequestParams
    maxRequests requestCount

/-- `paginatedApiRequest` of `apiUtils.ts`: start at `requestCount = 0`
(with default `maxRequests = 9999` at the call sites that omit it). -/
def paginatedApiRequest {D : Type}
    (api : String → String → Option JsonVal → Option Options →
      Except ApiError (ApiResponse D))
    (apiRequestParams : ApiRequestParams) (maxRequests : Nat := 9999) :
    List (PagEvent D) :=
  makePaginatedRequest api apiRequestParams maxRequests 0

/-! ## Action batches (`actionBatchHelpers`)

Embedding of `batchedApiRequest` / `pollActionBatch` /
`handleActionBatchStatus` / `makeFailResponseObj`.  `checkBatchStatus` is
abstracted as an oracle `Nat → Except ApiError (ApiResponse
ActionBatchResponse)` giving the settled result of the k-th status poll
(all polls hit the same URL `/api/v1/organizations/{orgId}/actionBatches/
{batchId}`); the duration of the k-th poll in milliseconds is an oracle
`Nat → Nat` and the sleeps advance the clock by `interval`. -/

/-- `ActionBatchStatus`. -/
structure ActionBatchStatus where
  completed : Bool
  failed : Bool
  errors : List String

/-- `ActionBatchResponse` (the fields the helpers read). -/
structure ActionBatchResponse where
  id : String
  organizationId : String
  confirmed : Bool
  synchronous : Bool
  status : ActionBatchStatus

/-- `ActionBatchOptions`. -/
structure ActionBatchOptions where
  maxPollingTime : Option Nat := none
  interval : Option Nat := none
  synchronous : Option Bool := none

/-- `opts?.field || default` for the numeric options: an absent option or
a falsy (zero) value falls back to the default. -/
def jsOrNat (o : Option Nat) (default : Nat) : Nat :=
  match o with
  | some n => if n = 0 then default else n
  | none => default

/-- `makeFailResponseObj`: the rejection built when the batch itself
failed — the status's `errors`, `ok` set (verbatim from the source) to the
status's `completed` flag, and the transport status code/text of the
response that carried the status. -/
def makeFailResponseObj (apiResponse : ApiResponse ActionBatchResponse) : ApiError :=
  let status := apiResponse.data.status
  { errors := status.errors
    ok := status.completed
    statusCode := apiResponse.statusCode
    statusText := apiResponse.statusText }

/-- The union type `ApiResponse<ActionBatchResponse> | ApiError | undefined`
returned by `handleActionBatchStatus`. -/
inductive RespOrError where
  | resp (r : ApiResponse ActionBatchResponse)
  | err (e : ApiError)
  | undefinedValue

/-- `handleActionBatchStatus`: completed → the response, else failed → the
`makeFailResponseObj` error, else `undefined`. -/
def handleActionBatchStatus (apiResponse : ApiResponse ActionBatchResponse) :
    RespOrError :=
  let batchStatus := apiResponse.data.status
  if batchStatus.completed then .resp apiResponse
  else if batchStatus.failed then .err (makeFailResponseObj apiResponse)
  else .undefinedValue

/-- `isApiError` on the union `handleActionBatchStatus` returns: for an
`ApiError` value the `Array.isArray`/`typeof` checks hold by typing and
`ok === false` remains; an `ApiResponse` passes exactly when its `errors`
field is an array (non-`null`) and its `ok` field is `false`; `undefined`
never passes. -/
def RespOrError.isApiError : RespOrError → Bool
  | .err e => e.ok = false
  | .resp r => r.errors.isSome ∧ r.ok = false
  | .undefinedValue => false

/-- A settled action-batch promise: `.error` is a rejection (the rejected
value is the `RespOrError` the source passes to `Promise.reject` — always
a value whose `isApiError` holds on the paths the source can take). -/
abbrev BatchResult := Except RespOrError (ApiResponse ActionBatchResponse)

/-- The body of `pollActionBatch`'s `while (Date.now() <= endTime)` loop.
`k` is the index of the next poll, `now` the clock at the loop-condition
check.  The k-th poll takes `dur k` milliseconds, so the inner
`Date.now() <= endTime` check (which guards the sleep) sees `now + dur k`;
a sleep advances the clock by `interval`.  A caught transport rejection is
re-rejected unchanged.  Fuel: each iteration that loops again advances the
clock by at least 1 (`interval ≥ 1` at every call site, and the no-sleep
path only happens when `dur k ≥ 1`), so `endTime - now + 2` iterations
always suffice; on exhausted fuel the definition returns the same timeout
rejection the loop would eventually produce. -/
def pollActionBatchAux (check : Nat → Except ApiError (ApiResponse ActionBatchResponse))
    (dur : Nat → Nat) (interval endTime : Nat)
    (maxPollingError : ApiError) :
    Nat → Nat → Nat → BatchResult
  | 0, _, _ => .error (.err maxPollingError)
  | fuel + 1, k, now =>
    if now ≤ endTime then
      match check k with
      | .error failedResponse => .error (.err failedResponse)
      | .ok apiResp =>
        match handleActionBatchStatus apiResp with
        | .err e => .error (.err e)
          -- `isApiError` holds here: see `handleActionBatchStatus_err_ok_false`
        | .resp r =>
          if (RespOrError.resp r).isApiError then .error (.resp r) else .ok r
        | .undefinedValue =>
          if now + dur k ≤ endTime then
            pollActionBatchAux check dur interval endTime maxPollingError
              fuel (k + 1) (now + dur k + interval)
          else
            pollActionBatchAux check dur interval endTime maxPollingError
              fuel (k + 1) (now + dur k)
    else .error (.err maxPollingError)

/-- The synthetic rejection of `pollActionBatch` when `maxPollingTime`
elapses. -/
def maxPollingErrorObj : ApiError :=
  { errors := ["Your updates have been submitted and are still pending. Try reloading the page."]
    ok := false
    statusCode := 200
    statusText := "max timeout" }

/-- `pollActionBatch`: defaults `interval = 500`, `maxPollingTime = 12000`
(`||`, so explicit zeros also fall back), `endTime = Date.now() +
maxPollingTime` with `t0` the clock at entry. -/
def pollActionBatch (check : Nat → Except ApiError (ApiResponse ActionBatchResponse))
    (dur : Nat → Nat) (t0 : Nat) (opts : ActionBatchOptions) : BatchResult :=
  let interval := jsOrNat opts.interval 500
  let maxPollingTime := jsOrNat opts.maxPollingTime 12000
  let endTime := t0 + maxPollingTime
  pollActionBatchAux check dur interval endTime maxPollingErrorObj
    (maxPollingTime + 2) 0 t0

/-- `batchedApiRequest`: submit the batch (the settled result of the
submission POST is `submit`), classify its status, and poll when pending.
`t0` is the clock when polling starts. -/
def batchedApiRequest (submit : Except ApiError (ApiResponse ActionBatchResponse))
    (check : Nat → Except ApiError (ApiResponse ActionBatchResponse))
    (dur : Nat → Nat) (t0 : Nat) (opts : ActionBatchOptions) : BatchResult :=
  match submit with
  | .error failedResponse => .error (.err failedResponse)
  | .ok apiResp =>
    match handleActionBatchStatus apiResp with
    | .err e => .error (.err e)
    | .resp r =>
      if (RespOrError.resp r).isApiError then .error (.resp r) else .ok r
    | .undefinedValue => pollActionBatch check dur t0 opts

/-- `headers.get`-style lookup on a built JavaScript object. -/
def headerGet (headers : List (String × String)) (k : String) : Option String :=
  (headers.find? (fun p => p.1 = k)).map (fun p => p.2)

/-- The value a JavaScript truthiness test lets through: present and
non-empty. -/
def truthyString : Option String → Option String
  | some s => if s = "" then none else some s
  | none => none

/-- The csrf token `apiRequest`'s truthiness guard accepts. -/
def csrfTokenOf (options : Option Options) : Option String :=
  truthyString ((options.bind Options.auth).bind Auth.csrfToken)

/-- The api key `apiRequest`'s truthiness guard accepts. -/
def apiKeyOf (options : Option Options) : Option String :=
  truthyString ((options.bind Options.auth).bind Auth.apiKey)

/-- A 429 response used as a concrete retry witness. -/
def resp429Example : Response :=
  { status := 429
    statusText := "Too Many Requests"
    body := some (.obj [("errors", .arr [.str "rate limited"])])
    linkHeader := none
    retryAfterHeader := none }

/-- Event classifiers for paginated-run traces. -/
def isCallEvent {D : Type} : PagEvent D → Bool
  | .call _ _ _ _ => true
  | _ => false

def isDataEvent {D : Type} : PagEvent D → Bool
  | .dataOut _ => true
  | _ => false

def isErrorEvent {D : Type} : PagEvent D → Bool
  | .errorOut _ => true
  | _ => false

def countCalls {D : Type} (l : List (PagEvent D)) : Nat := l.countP isCallEvent

def countData {D : Type} (l : List (PagEvent D)) : Nat := l.countP isDataEvent

def countErrors {D : Type} (l : List (PagEvent D)) : Nat := l.countP isErrorEvent

/-- Sequencing relation between adjacent trace events: a request may only
directly follow a data delivery, so page k's data is handed to the data
handler before the request for page k+1 is issued. -/
def pagSeq {D : Type} (a b : PagEvent D) : Prop :=
  isCallEvent b = true → isDataEvent a = true

/-- One page of the concrete 5-page chain used in the pagination
scenario. -/
def chainPage (n : Nat) (next : Option String) : ApiResponse Nat :=
  { data := n
    firstPageUrl := none
    lastPageUrl := none
    nextPageUrl := next
    prevPageUrl := none
    linkHeader := none
    retryAfter := none
    errors := none
    ok := true
    statusCode := 200
    statusText := "OK" }

/-- A 5-page chain `p1 → p2 → p3 → p4 → p5` behind the `apiRequest`
interface. -/
def chainApi5 : String → String → Option JsonVal → Option Options →
    Except ApiError (ApiResponse Nat) :=
  fun _ url _ _ =>
    if url = "p1" then .ok (chainPage 1 (some "p2"))
    else if url = "p2" then .ok (chainPage 2 (some "p3"))
    else if url = "p3" then .ok (chainPage 3 (some "p4"))
    else if url = "p4" then .ok (chainPage 4 (some "p5"))
    else if url = "p5" then .ok (chainPage 5 none)
    else .error { errors := ["404"], ok := false, statusCode := 404, statusText := "Not Found" }

/-- A submission response whose batch status is failed, used as a concrete
witness. -/
def batchFailedResp : ApiResponse ActionBatchResponse :=
  { statusCode := 200
    statusText := "OK"
    errors := none
    ok := true
    retryAfter := none
    firstPageUrl := none
    lastPageUrl := none
    nextPageUrl := none
    prevPageUrl := none
    linkHeader := none
    data := { id := "b1", organizationId := "2", confirmed := true, synchronous := false,
              status := { completed := false, failed := true, errors := ["bad action"] } } }

/-- A permanently-pending batch response, used as a concrete witness. -/
def batchPendingResp : ApiResponse ActionBatchResponse :=
  { statusCode := 200
    statusText := "OK"
    errors := none
    ok := true
    retryAfter := none
    firstPageUrl := none
    lastPageUrl := none
    nextPageUrl := none
    prevPageUrl := none
    linkHeader := none
    data := { id := "b1", organizationId := "2", confirmed := true, synchronous := false,
              status := { completed := false, failed := false, errors := [] } } }

/-- The wire contract for error bodies (spec §6): a JSON body that, when it
carries an `errors` field at all, carries an array of strings. An
unparseable body (`none`) is allowed. -/
def WireErrorBody : Option JsonVal → Prop
  | none => True
  | some j =>
    j.getErrors = none ∨ ∃ l : List String, j.getErrors = some (.arr (l.map .str))

/-- Example non-ok response with a standard error body. -/
def rFailExample : Response :=
  { status := 404
    statusText := "Not Found"
    body := some (.obj [("errors", .arr [.str "Not found"])])
    linkHeader := none
    retryAfterHeader := none }

/-- Example ok response with body `{"id": 1}`. -/
def rOkExample : Response :=
  { status := 200
    statusText := "OK"
    body := some (.obj [("id", .num 1)])
    linkHeader := none
    retryAfterHeader := none }

/-- A 429 response carrying `Retry-After: 0`. -/
def retryAfterZeroResponse : Response :=
  { status := 429
    statusText := "Too Many Requests"
    body := none
    linkHeader := none
    retryAfterHeader := some "0" }

/-- A mixed response sequence: two 429 responses, then 200s. -/
def oracle429Twice : Nat → Response :=
  fun n => if n < 2 then resp429Example else rOkExample

/-! ## Claim theorems -/

/-- On the failed branch `handleActionBatchStatus` always produces an error
whose `ok` is `false` (the branch requires `completed = false`), so the
source's `isApiError` guard before `Promise.reject` always passes there. -/
theorem handleActionBatchStatus_err_ok_false
    (apiResponse : ApiResponse ActionBatchResponse) (e : ApiError)
    (h : handleActionBatchStatus apiResponse = .err e) : e.ok = false := by
  unfold handleActionBatchStatus at h
  by_cases hc : apiResponse.data.status.completed
  · simp [hc] at h
  · by_cases hf : apiResponse.data.status.failed
    · simp [hc, hf, makeFailResponseObj] at h
      rw [← h]
    · simp [hc, hf] at h


/-- C5: for every rejection of `apiRequest` caused by a received non-ok
response, the rejected envelope's `errors` field is always an array of
strings, never absent: it equals the parsed error body's `errors` field
when that field is present, the empty array when the body parses as JSON
but has no `errors` field, and `["Could not parse errors from response"]`
when the body cannot be parsed as JSON at all. -/
theorem failureResponse_errors_shape (r : Response) (hw : WireErrorBody r.body) :
    (∃ l : List String, (failureResponse r).errors = .arr (l.map .str)) ∧
    (r.body = none →
      (failureResponse r).errors = .arr [.str "Could not parse errors from response"]) ∧
    (∀ j, r.body = some j → j.getErrors = none → (failureResponse r).errors = .arr []) ∧
    (∀ j v, r.body = some j → j.getErrors = some v → (failureResponse r).errors = v) := by
  rcases hb : r.body with _ | j
  · refine ⟨⟨["Could not parse errors from response"], by simp [failureResponse, hb]⟩,
      fun _ => by simp [failureResponse, hb], ?_, ?_⟩
    · intro j hj _
      simp at hj
    · intro j v hj _
      simp at hj
  · rw [hb] at hw
    rcases hw with hnone | ⟨l, hl⟩
    · refine ⟨⟨[], by simp [failureResponse, hb, hnone]⟩, fun hc => by simp at hc, ?_, ?_⟩
      · intro j2 hj2 _
        simp [failureResponse, hb, hnone]
      · intro j2 v hj2 hv
        obtain rfl : j = j2 := by injection hj2
        rw [hnone] at hv
        simp at hv
    · refine ⟨⟨l, by simp [failureResponse, hb, hl, JsonVal.truthy]⟩,
        fun hc => by simp at hc, ?_, ?_⟩
      · intro j2 hj2 hn
        obtain rfl : j = j2 := by injection hj2
        rw [hl] at hn
        simp at hn
      · intro j2 v hj2 hv
        obtain rfl : j = j2 := by injection hj2
        rw [hl] at hv
        obtain rfl : JsonVal.arr (l.map .str) = v := by injection hv
        simp [failureResponse, hb, hl, JsonVal.truthy]

/-- Witness for C5 at a concrete 404 response with body
`{"errors": ["Not found"]}`. -/
theorem failureResponse_errors_shape_witness :
    WireErrorBody rFailExample.body ∧
    (failureResponse rFailExample).errors = .arr [.str "Not found"] := by
  have hw : WireErrorBody rFailExample.body := Or.inr ⟨["Not found"], rfl⟩
  exact ⟨hw, (failureResponse_errors_shape rFailExample hw).2.2.2 _ _ rfl rfl⟩

/-- C6: for every `apiRequest` call that resolves, the resolved envelope
has `ok = true` and `errors = null`, and its `data` equals the JSON-parsed
body, or `{}` when the body cannot be parsed as JSON; and `apiRequest`
resolves with exactly `successResponse` of the final response whenever
that response is ok (parse failure never reaches the rejection path). -/
theorem successResponse_shape (r : Response) :
    (successResponse r).ok = true ∧
    (successResponse r).errors = none ∧
    (∀ j, r.body = some j → (successResponse r).data = j) ∧
    (r.body = none → (successResponse r).data = .obj []) ∧
    (∀ (oracle : Nat → Response) (jitter : Nat → ℚ),
      ((retryLoop oracle jitter 5 0 (oracle 0)).1).ok = true →
      (apiRequest oracle jitter).1 =
        .ok (successResponse (retryLoop oracle jitter 5 0 (oracle 0)).1)) := by
  refine ⟨by simp [successResponse, extractCustomHeaders],
    by simp [successResponse, extractCustomHeaders], ?_, ?_, ?_⟩
  · intro j hj
    simp [successResponse, hj]
  · intro hj
    simp [successResponse, hj]
  · intro oracle jitter hok
    simp [apiRequest, hok]

/-- Witness for C6 at a concrete 200 response. -/
theorem successResponse_shape_witness :
    (successResponse rOkExample).data = .obj [("id", .num 1)] ∧
    (apiRequest (fun _ => rOkExample) (fun _ => 0)).1 = .ok (successResponse rOkExample) := by
  refine ⟨(successResponse_shape rOkExample).2.2.1 _ rfl, ?_⟩
  exact (successResponse_shape rOkExample).2.2.2.2 (fun _ => rOkExample) (fun _ => 0) rfl

/-- C8 counterexample: the header value `"0"` is a valid integer whose
integer parse is `0`, yet the envelope's `retryAfter` is `null` — the
source computes `parseInt(header) || null`, and `0` is falsy. -/
theorem retryAfter_zero_counterexample :
    parseIntBase10 "0" = some 0 ∧
    (extractCustomHeaders retryAfterZeroResponse).retryAfter = none := by
  constructor <;> rfl

/-- C8 amended: the envelope's `retryAfter` equals the integer parse
(JavaScript `parseInt`) of the `Retry-After` header when the header is
present and parses to a nonzero integer; it is `null` when the header is
absent, when the value is unparseable as an integer, and also when it
parses to `0`; the extraction is total (never throws). -/
theorem retryAfter_amended (r : Response) :
    (extractCustomHeaders r).retryAfter =
      (match r.retryAfterHeader with
       | none => none
       | some h =>
         match parseIntBase10 h with
         | none => none
         | some n => if n = 0 then none else some n) := by
  rcases hr : r.retryAfterHeader with _ | h
  · simp [extractCustomHeaders, hr]
  · by_cases he : h = ""
    · subst he
      simp [extractCustomHeaders, hr]
      rfl
    · simp only [extractCustomHeaders, hr, ne_eq, he, not_false_iff, if_true]
      rcases parseIntBase10 h with _ | n <;> simp

/-! ### C7: link-header extraction -/

theorem takeWhile_append_of_all {α : Type} (p : α → Bool) (l1 l2 : List α)
    (h : ∀ c ∈ l1, p c = true) :
    (l1 ++ l2).takeWhile p = l1 ++ l2.takeWhile p := by
  induction l1 with
  | nil => simp
  | cons a t ih =>
    have ha := h a (by simp)
    simp [List.takeWhile_cons, ha, ih (fun c hc => h c (by simp [hc]))]

theorem dropWhile_append_of_all {α : Type} (p : α → Bool) (l1 l2 : List α)
    (h : ∀ c ∈ l1, p c = true) :
    (l1 ++ l2).dropWhile p = l2.dropWhile p := by
  induction l1 with
  | nil => simp
  | cons a t ih =>
    have ha := h a (by simp)
    simp [List.dropWhile_cons, ha, ih (fun c hc => h c (by simp [hc]))]

/-- Finding the first matched token among a list of optional matches and
returning its url is the same as skipping the failed matches
(`filterMap`) and finding there: failed matches never satisfy the `find?`
predicate, so they are transparent to the search. -/
theorem find_over_options (l : List (Option (String × String))) (rel : String) :
    (match l.find? (fun o =>
        match o with
        | some p => p.2 = rel
        | none => false) with
     | some (some p) => some p.1
     | _ => none) =
    ((l.filterMap id).find? (fun p => p.2 = rel)).map (fun p => p.1) := by
  induction l with
  | nil => rfl
  | cons o rest ih =>
    cases o with
    | none =>
      simpa [List.find?_cons, List.filterMap_cons] using ih
    | some p =>
      by_cases hp : p.2 = rel
      · simp [List.find?_cons, List.filterMap_cons, hp]
      · simpa [List.find?_cons, List.filterMap_cons, hp] using ih

/-- C7: for every `Link` header string, each of `firstPageUrl`,
`prevPageUrl`, `nextPageUrl`, `lastPageUrl` equals the url of the
`", "`-separated token of the form `<url>; rel=name` whose rel exactly
equals first/prev/next/last respectively (via the shared
`extractUrlFromLinkHeader`), or null when no such token exists; tokens
that fail the match (missing url or rel) are silently skipped
(`filterMap`); and when the `Link` header is absent, all four URL fields
and the `linkHeader` field are null. -/
theorem linkHeader_extraction :
    (∀ (h rel : String), h ≠ "" →
      extractUrlFromLinkHeader h rel =
        (((jsSplit h ", ").filterMap matchLinkToken).find?
          (fun p => p.2 = rel)).map (fun p => p.1)) ∧
    (∀ u rel : String, u ≠ "" → (∀ c ∈ u.toList, c ≠ '>') → rel ≠ "" →
      (∀ c ∈ rel.toList, c ≠ '\n' ∧ c ≠ '\r') →
      matchLinkToken ("<" ++ u ++ ">; rel=" ++ rel) = some (u, rel)) ∧
    (∀ r : Response, r.linkHeader = none →
      (extractCustomHeaders r).firstPageUrl = none ∧
      (extractCustomHeaders r).prevPageUrl = none ∧
      (extractCustomHeaders r).nextPageUrl = none ∧
      (extractCustomHeaders r).lastPageUrl = none ∧
      (extractCustomHeaders r).linkHeader = none) ∧
    (∀ (r : Response) (h : String), r.linkHeader = some h → h ≠ "" →
      (extractCustomHeaders r).firstPageUrl = extractUrlFromLinkHeader h "first" ∧
      (extractCustomHeaders r).prevPageUrl = extractUrlFromLinkHeader h "prev" ∧
      (extractCustomHeaders r).nextPageUrl = extractUrlFromLinkHeader h "next" ∧
      (extractCustomHeaders r).lastPageUrl = extractUrlFromLinkHeader h "last" ∧
      (extractCustomHeaders r).linkHeader = some h) := by
  refine ⟨?_, ?_, ?_, ?_⟩
  · intro h rel hne
    unfold extractUrlFromLinkHeader
    rw [if_neg hne]
    rw [find_over_options]
    rw [List.filterMap_map]
    rfl
  · intro u rel hu hugt hrel hrnl
    have hdata : ("<" ++ u ++ ">; rel=" ++ rel).toList
        = '<' :: (u.toList ++ ('>' :: ';' :: ' ' :: 'r' :: 'e' :: 'l' :: '=' :: rel.toList)) := by
      show ("<" ++ u ++ ">; rel=" ++ rel).data = _
      simp [String.data_append]
    have hne : ¬u.toList.isEmpty = true := by
      simp only [List.isEmpty_eq_true]
      intro hc
      apply hu
      cases u with
      | mk d =>
        rw [show String.toList ⟨d⟩ = d from rfl] at hc
        subst hc
        rfl
    have hall : ∀ c ∈ u.toList, (fun c => decide (c ≠ '>')) c = true := by
      intro c hc
      simpa using hugt c hc
    have hrelne : ¬rel.toList.isEmpty = true := by
      simp only [List.isEmpty_eq_true]
      intro hc
      apply hrel
      cases rel with
      | mk d =>
        rw [show String.toList ⟨d⟩ = d from rfl] at hc
        subst hc
        rfl
    have hnonl : rel.toList.any (fun c => decide (c = '\n' ∨ c = '\r')) = false := by
      rw [List.any_eq_false]
      intro c hc
      have h2 := hrnl c hc
      simp [h2.1, h2.2]
    unfold matchLinkToken
    rw [hdata]
    rw [matchLinkTokenChars]
    rw [takeWhile_append_of_all _ _ _ hall, dropWhile_append_of_all _ _ _ hall]
    rw [List.takeWhile_cons_of_neg (by simp), List.dropWhile_cons_of_neg (by simp)]
    rw [matchRelSuffix]
    simp only [List.append_nil]
    rw [if_neg hne, if_neg ?hcond]
    case hcond =>
      intro hcontra
      rcases hcontra with hc | hc
      · exact hrelne hc
      · rw [hnonl] at hc
        exact absurd hc (by simp)
    rfl
  · intro r hr
    simp [extractCustomHeaders, hr]
  · intro r h hr hne
    simp [extractCustomHeaders, hr, hne]

/-- Witness for C7 at the spec's example header
`"<A>; rel=first, <B>; rel=next"`. -/
theorem linkHeader_extraction_witness :
    extractUrlFromLinkHeader "<A>; rel=first, <B>; rel=next" "next" = some "B" ∧
    matchLinkToken "<A>; rel=first" = some ("A", "first") := by
  constructor
  · rw [linkHeader_extraction.1 "<A>; rel=first, <B>; rel=next" "next" (by decide)]
    rfl
  · exact linkHeader_extraction.2.1 "A" "first" (by decide) (by decide) (by decide)
      (by decide)

/-- C9: the outgoing request always carries `Content-Type: application/json`
and `Accept: application/json`; an `X-CSRF-TOKEN` header is present iff
`options.auth.csrfToken` is set (to a non-empty string, the truthiness the
source tests) and then carries that token; an `X-Cisco-Meraki-API-Key`
header is present iff `options.auth.apiKey` is set, and both may be set
simultaneously; and the entries of `options.fetchOptions` are merged in
last, overriding the defaults per present key while defaults not
overridden remain in effect. -/
theorem apiRequest_headers :
    (∀ (method : String) (data : Option JsonVal) (options : Option Options),
      (options.bind Options.fetchOptions).bind FetchOverrides.headers = none →
      headerGet (buildFetchOptions method data options).headers "Content-Type"
          = some "application/json" ∧
      headerGet (buildFetchOptions method data options).headers "Accept"
          = some "application/json" ∧
      headerGet (buildFetchOptions method data options).headers "X-CSRF-TOKEN"
          = csrfTokenOf options ∧
      headerGet (buildFetchOptions method data options).headers "X-Cisco-Meraki-API-Key"
          = apiKeyOf options) ∧
    (∀ (method : String) (data : Option JsonVal) (o : Options) (fo : FetchOverrides),
      o.fetchOptions = some fo →
      (buildFetchOptions method data (some o)).method = fo.method.getD method ∧
      (buildFetchOptions method data (some o)).headers = fo.headers.getD
        (objSpread [("Content-Type", "application/json"), ("Accept", "application/json")]
          (authHeadersOf (some o))) ∧
      (buildFetchOptions method data (some o)).redirect = fo.redirect.getD "follow" ∧
      (buildFetchOptions method data (some o)).referrerPolicy
        = fo.referrerPolicy.getD "strict-origin-when-cross-origin") := by
  constructor
  · intro method data options hnohdr
    have hh : (buildFetchOptions method data options).headers
        = objSpread [("Content-Type", "application/json"), ("Accept", "application/json")]
            (authHeadersOf options) := by
      rcases options with _ | o
      · cases data <;> rfl
      · rcases hfo : o.fetchOptions with _ | fo
        · cases data <;> simp [buildFetchOptions, hfo]
        · have hhd : fo.headers = none := by simpa [hfo] using hnohdr
          cases data <;> simp [buildFetchOptions, hfo, hhd]
    simp only [hh]
    rcases options with _ | o
    · simp [authHeadersOf, objSpread, objSet, headerGet, csrfTokenOf, apiKeyOf, truthyString]
    · rcases o with ⟨ofo, oauth⟩
      rcases oauth with _ | a
      · simp [authHeadersOf, objSpread, objSet, headerGet, csrfTokenOf, apiKeyOf, truthyString]
      · rcases a with ⟨key, tok⟩
        rcases key with _ | k <;> rcases tok with _ | t
        · simp [authHeadersOf, objSpread, objSet, headerGet, csrfTokenOf, apiKeyOf,
            truthyString]
        · by_cases ht : t = "" <;>
            simp [authHeadersOf, objSpread, objSet, headerGet, csrfTokenOf, apiKeyOf,
              truthyString, ht]
        · by_cases hk : k = "" <;>
            simp [authHeadersOf, objSpread, objSet, headerGet, csrfTokenOf, apiKeyOf,
              truthyString, hk]
        · by_cases ht : t = "" <;> by_cases hk : k = "" <;>
            simp [authHeadersOf, objSpread, objSet, headerGet, csrfTokenOf, apiKeyOf,
              truthyString, ht, hk]
  · intro method data o fo hfo
    cases data <;> simp [buildFetchOptions, hfo]

/-- Witness for C9: a concrete call with both auth credentials set and no
transport overrides. -/
theorem apiRequest_headers_witness :
    headerGet (buildFetchOptions "POST" none
        (some { fetchOptions := none
                auth := some { apiKey := some "k1", csrfToken := some "c1" } })).headers
      "X-CSRF-TOKEN" = some "c1" ∧
    headerGet (buildFetchOptions "POST" none
        (some { fetchOptions := none
                auth := some { apiKey := some "k1", csrfToken := some "c1" } })).headers
      "X-Cisco-Meraki-API-Key" = some "k1" := by
  have h := apiRequest_headers.1 "POST" none
    (some { fetchOptions := none
            auth := some { apiKey := some "k1", csrfToken := some "c1" } }) rfl
  exact ⟨h.2.2.1.trans rfl, h.2.2.2.trans rfl⟩

/-! ### C1: rate-limit retry loop -/

theorem retryLoop_retries_le (oracle : Nat → Response) (jitter : Nat → ℚ) :
    ∀ (fuel attempt : Nat) (r : Response),
      (retryLoop oracle jitter fuel attempt r).2.1 ≤ attempt + fuel := by
  intro fuel
  induction fuel with
  | zero =>
    intro a r
    simp [retryLoop]
  | succ n ih =>
    intro a r
    by_cases hc : r.status = 429 ∧ a < 5
    · have h2 := ih (a + 1) (oracle (a + 1))
      simp only [retryLoop, if_pos hc]
      omega
    · simp only [retryLoop, if_neg hc]
      omega

/-- The retry loop on an arbitrary response sequence: if responses
`0, …, k-1` have status 429 and the loop stops at index `k` (because
response `k` is not a 429, or because `k = 5` and the retry budget is
exhausted), the loop returns response `k` after `k` retries, having slept
before the i-th retry (0-based) the backoff computed from the i-th 429
response. -/
theorem retryLoop_stops (oracle : Nat → Response) (jitter : Nat → ℚ) :
    ∀ (k fuel a : Nat),
      (∀ i, a ≤ i → i < a + k → (oracle i).status = 429) →
      ((oracle (a + k)).status ≠ 429 ∨ a + k = 5) →
      a + k ≤ 5 → k ≤ fuel →
      retryLoop oracle jitter fuel a (oracle a) =
        (oracle (a + k), a + k,
         (List.range k).map (fun i =>
           retryBaseDelay (oracle (a + i)) (a + i) + jitter (a + i))) := by
  intro k
  induction k with
  | zero =>
    intro fuel a h429 hstop hle hfuel
    have hcond : ¬((oracle a).status = 429 ∧ a < 5) := by
      rcases hstop with h | h
      · rw [Nat.add_zero] at h
        exact fun hc => h hc.1
      · rw [Nat.add_zero] at h
        omega
    cases fuel with
    | zero => simp [retryLoop]
    | succ n => simp [retryLoop, if_neg hcond]
  | succ m ih =>
    intro fuel a h429 hstop hle hfuel
    obtain ⟨f, rfl⟩ : ∃ f, fuel = f + 1 := ⟨fuel - 1, by omega⟩
    have hcond : (oracle a).status = 429 ∧ a < 5 :=
      ⟨h429 a (le_refl a) (by omega), by omega⟩
    have hih := ih f (a + 1)
      (fun i h1 h2 => h429 i (by omega) (by omega))
      (by rcases hstop with h | h
          · left
            rwa [show a + 1 + m = a + (m + 1) by omega]
          · right
            omega)
      (by omega) (by omega)
    have hidx : a + 1 + m = a + (m + 1) := by omega
    have hlist : (List.range (m + 1)).map (fun i =>
          retryBaseDelay (oracle (a + i)) (a + i) + jitter (a + i))
        = (retryBaseDelay (oracle a) a + jitter a) ::
          (List.range m).map (fun i =>
            retryBaseDelay (oracle (a + 1 + i)) (a + 1 + i) + jitter (a + 1 + i)) := by
      have hfun : ((fun i => retryBaseDelay (oracle (a + i)) (a + i) + jitter (a + i))
            ∘ Nat.succ)
          = (fun i => retryBaseDelay (oracle (a + 1 + i)) (a + 1 + i) + jitter (a + 1 + i)) := by
        funext i
        simp only [Function.comp_apply]
        rw [show a + Nat.succ i = a + 1 + i by omega]
      rw [List.range_succ_eq_map]
      simp only [List.map_cons, List.map_map, Nat.add_zero]
      rw [hfun]
    simp only [retryLoop, if_pos hcond]
    rw [hih, hlist, hidx]

/-- C1: on every response sequence, each 429 response with retry budget
remaining causes the identical request to be re-issued once (at most 5
retries, at most 6 fetches); if responses `0, …, k-1` are 429 and the
loop stops at `k` (response `k` not a 429, or `k = 5`), then exactly
`k + 1` fetches happen, the wait before retry number `i + 1` is the
backoff of the i-th 429 response (its parsed Retry-After value in seconds
when present, otherwise `1.5 ^ (i + 1)`) plus a random jitter in `[0,1)`,
and the final response — in particular any non-429 failure — is never
retried but settled directly: rejected with its failure envelope when not
ok (after exactly 6 attempts in the all-429 case `k = 5`), resolved
otherwise. -/
theorem apiRequest_retry_behavior (oracle : Nat → Response) (jitter : Nat → ℚ)
    (hjit : ∀ n, 0 ≤ jitter n ∧ jitter n < 1) (k : Nat) (hk : k ≤ 5)
    (h429 : ∀ i, i < k → (oracle i).status = 429)
    (hstop : (oracle k).status ≠ 429 ∨ k = 5) :
    (apiRequest oracle jitter).2.1 = k + 1 ∧
    (apiRequest oracle jitter).2.2 =
      (List.range k).map (fun i => retryBaseDelay (oracle i) i + jitter i) ∧
    (apiRequest oracle jitter).1 =
      (if (oracle k).ok then .ok (successResponse (oracle k))
       else .error (failureResponse (oracle k))) ∧
    (∀ i, i < k → ∃ d, ((apiRequest oracle jitter).2.2).get? i = some d ∧
      retryBaseDelay (oracle i) i ≤ d ∧ d < retryBaseDelay (oracle i) i + 1) ∧
    (apiRequest oracle jitter).2.1 ≤ 6 := by
  have hl := retryLoop_stops oracle jitter k 5 0
    (fun i h1 h2 => h429 i (by omega))
    (by simpa using hstop) (by omega) hk
  simp only [Nat.zero_add] at hl
  have hd : (apiRequest oracle jitter).2.2 =
      (List.range k).map (fun i => retryBaseDelay (oracle i) i + jitter i) := by
    simp [apiRequest, hl]
  refine ⟨by simp [apiRequest, hl], hd, by simp [apiRequest, hl], ?_, ?_⟩
  · intro i hi
    refine ⟨retryBaseDelay (oracle i) i + jitter i, ?_,
      by linarith [(hjit i).1], by linarith [(hjit i).2]⟩
    rw [hd, List.get?_eq_getElem?, List.getElem?_map, List.getElem?_range hi]
    rfl
  · have hb := retryLoop_retries_le oracle jitter 5 0 (oracle 0)
    simp only [apiRequest]
    omega

/-- Witness for C1: the spec's mixed retry scenario — two 429 responses
followed by a 200 — resolves after exactly 3 fetches, with both backoff
waits recorded; the final (non-429) response is settled, not retried. -/
theorem apiRequest_retry_behavior_witness :
    (apiRequest oracle429Twice (fun _ => 1 / 2)).2.1 = 3 ∧
    (apiRequest oracle429Twice (fun _ => 1 / 2)).1 =
      .ok (successResponse rOkExample) ∧
    (apiRequest oracle429Twice (fun _ => 1 / 2)).2.2 =
      [retryBaseDelay resp429Example 0 + 1 / 2,
       retryBaseDelay resp429Example 1 + 1 / 2] := by
  have h := apiRequest_retry_behavior oracle429Twice (fun _ => (1 : ℚ) / 2)
    (fun n => by norm_num) 2 (by omega)
    (fun i hi => by interval_cases i <;> rfl)
    (Or.inl (by decide))
  refine ⟨h.1, ?_, ?_⟩
  · rw [h.2.2.1]
    rfl
  · rw [h.2.1]
    rfl

/-! ### C4 and C10: paginator -/

theorem makePagAux_counts {D : Type}
    (api : String → String → Option JsonVal → Option Options →
      Except ApiError (ApiResponse D)) :
    ∀ (fuel : Nat) (p : ApiRequestParams) (maxR cnt : Nat),
      countCalls (makePaginatedRequestAux api fuel p maxR cnt) ≤ fuel ∧
      countData (makePaginatedRequestAux api fuel p maxR cnt) ≤ fuel := by
  intro fuel
  induction fuel with
  | zero =>
    intro p maxR cnt
    simp [makePaginatedRequestAux, countCalls, countData]
  | succ n ih =>
    intro p maxR cnt
    by_cases hg : cnt ≥ maxR
    · simp [makePaginatedRequestAux, hg, countCalls, countData]
    · cases hapi : api p.method p.url none none with
      | error e =>
        by_cases he : e.isApiError <;>
          simp [makePaginatedRequestAux, if_neg hg, hapi, he, countCalls, countData,
            List.countP_cons, isCallEvent, isDataEvent]
      | ok resp =>
        cases hnext : resp.nextPageUrl with
        | some nu =>
          have hih := ih { p with url := nu } maxR (cnt + 1)
          simp only [countCalls, countData] at hih
          simp [makePaginatedRequestAux, if_neg hg, hapi, hnext, countCalls, countData,
            List.countP_cons, isCallEvent, isDataEvent]
          omega
        | none =>
          simp [makePaginatedRequestAux, if_neg hg, hapi, hnext, countCalls, countData,
            List.countP_cons, isCallEvent, isDataEvent]

theorem makePagAux_chain {D : Type}
    (api : String → String → Option JsonVal → Option Options →
      Except ApiError (ApiResponse D)) :
    ∀ (fuel : Nat) (p : ApiRequestParams) (maxR cnt : Nat),
      List.Chain' pagSeq (makePaginatedRequestAux api fuel p maxR cnt) := by
  intro fuel
  induction fuel with
  | zero =>
    intro p maxR cnt
    simp [makePaginatedRequestAux]
  | succ n ih =>
    intro p maxR cnt
    by_cases hg : cnt ≥ maxR
    · simp [makePaginatedRequestAux, hg]
    · cases hapi : api p.method p.url none none with
      | error e =>
        by_cases he : e.isApiError <;>
          simp [makePaginatedRequestAux, if_neg hg, hapi, he, List.chain'_cons, pagSeq,
            isCallEvent, isDataEvent]
      | ok resp =>
        cases hnext : resp.nextPageUrl with
        | some nu =>
          have hch := ih { p with url := nu } maxR (cnt + 1)
          simp only [makePaginatedRequestAux, if_neg hg, hapi, hnext]
          rw [List.chain'_cons]
          refine ⟨fun hcall => by simp [isCallEvent] at hcall, ?_⟩
          rw [List.chain'_cons']
          exact ⟨fun y _ _ => rfl, hch⟩
        | none =>
          simp [makePaginatedRequestAux, if_neg hg, hapi, hnext, List.chain'_cons, pagSeq,
            isCallEvent, isDataEvent]

/-- C4: the paginator performs at most `maxRequests` page requests and at
most `maxRequests` data deliveries; pages are fetched and delivered
strictly sequentially in link order (every request after the first
directly follows the previous page's data delivery); and the concrete
5-page chain with `maxRequests = 3` produces exactly 3 requests and 3
data deliveries, in alternation, with no error callback. -/
theorem paginatedApiRequest_bounds_and_order :
    (∀ (D : Type)
      (api : String → String → Option JsonVal → Option Options →
        Except ApiError (ApiResponse D))
      (p : ApiRequestParams) (maxRequests : Nat),
      countCalls (paginatedApiRequest api p maxRequests) ≤ maxRequests ∧
      countData (paginatedApiRequest api p maxRequests) ≤ maxRequests) ∧
    (∀ (D : Type)
      (api : String → String → Option JsonVal → Option Options →
        Except ApiError (ApiResponse D))
      (p : ApiRequestParams) (maxRequests : Nat),
      List.Chain' pagSeq (paginatedApiRequest api p maxRequests)) ∧
    (paginatedApiRequest chainApi5 { method := "GET", url := "p1" } 3 =
      [.call "GET" "p1" none none, .dataOut 1,
       .call "GET" "p2" none none, .dataOut 2,
       .call "GET" "p3" none none, .dataOut 3] ∧
     countCalls (paginatedApiRequest chainApi5 { method := "GET", url := "p1" } 3) = 3 ∧
     countData (paginatedApiRequest chainApi5 { method := "GET", url := "p1" } 3) = 3 ∧
     countErrors (paginatedApiRequest chainApi5 { method := "GET", url := "p1" } 3) = 0) := by
  refine ⟨?_, ?_, ?_, ?_, ?_, ?_⟩
  · intro D api p maxRequests
    have h := makePagAux_counts api (maxRequests - 0) p maxRequests 0
    exact ⟨le_trans h.1 (by omega), le_trans h.2 (by omega)⟩
  · intro D api p maxRequests
    exact makePagAux_chain api (maxRequests - 0) p maxRequests 0
  · rfl
  · rfl
  · rfl
  · rfl

theorem makePagAux_params_eq {D : Type}
    (api : String → String → Option JsonVal → Option Options →
      Except ApiError (ApiResponse D)) :
    ∀ (fuel : Nat) (p1 p2 : ApiRequestParams) (maxR cnt : Nat),
      p1.method = p2.method → p1.url = p2.url →
      makePaginatedRequestAux api fuel p1 maxR cnt =
        makePaginatedRequestAux api fuel p2 maxR cnt := by
  intro fuel
  induction fuel with
  | zero => intro p1 p2 maxR cnt hm hu; rfl
  | succ n ih =>
    intro p1 p2 maxR cnt hm hu
    by_cases hg : cnt ≥ maxR
    · simp [makePaginatedRequestAux, hg]
    · cases hapi : api p2.method p2.url none none with
      | error e =>
        simp [makePaginatedRequestAux, if_neg hg, hm, hu, hapi]
      | ok resp =>
        cases hnext : resp.nextPageUrl with
        | some nu =>
          simp only [makePaginatedRequestAux, if_neg hg, hm, hu, hapi, hnext]
          rw [ih { method := p2.method, url := nu, data := p1.data, options := p1.options }
                { method := p2.method, url := nu, data := p2.data, options := p2.options }
                maxR (cnt + 1) rfl rfl]
        | none =>
          simp [makePaginatedRequestAux, if_neg hg, hm, hu, hapi, hnext]

theorem makePagAux_calls_bare {D : Type}
    (api : String → String → Option JsonVal → Option Options →
      Except ApiError (ApiResponse D)) :
    ∀ (fuel : Nat) (p : ApiRequestParams) (maxR cnt : Nat) (ev : PagEvent D),
      ev ∈ makePaginatedRequestAux api fuel p maxR cnt →
      ∀ m u d o, ev = .call m u d o → d = none ∧ o = none := by
  intro fuel
  induction fuel with
  | zero =>
    intro p maxR cnt ev hmem
    simp [makePaginatedRequestAux] at hmem
  | succ n ih =>
    intro p maxR cnt ev hmem m u d o hev
    subst hev
    by_cases hg : cnt ≥ maxR
    · simp [makePaginatedRequestAux, hg] at hmem
    · cases hapi : api p.method p.url none none with
      | error e =>
        by_cases he : e.isApiError <;>
          [skip; skip] <;>
          · simp [makePaginatedRequestAux, if_neg hg, hapi, he] at hmem
            exact ⟨hmem.2.2.1, hmem.2.2.2⟩
      | ok resp =>
        cases hnext : resp.nextPageUrl with
        | some nu =>
          simp [makePaginatedRequestAux, if_neg hg, hapi, hnext] at hmem
          rcases hmem with ⟨h1, h2, h3, h4⟩ | hmem
          · exact ⟨h3, h4⟩
          · exact ih { p with url := nu } maxR (cnt + 1) _ hmem m u d o rfl
        | none =>
          simp [makePaginatedRequestAux, if_neg hg, hapi, hnext] at hmem
          exact ⟨hmem.2.2.1, hmem.2.2.2⟩

/-- C10: every page request, including the first, is issued with only the
method and the current url: `apiRequestParams.data` and
`apiRequestParams.options` (hence all auth credentials and transport
overrides) are never forwarded — every issued call carries
`data = none` and `options = none`, and two paginated runs differing only
in `data` or `options` produce identical traces. -/
theorem paginated_ignores_data_options :
    (∀ (D : Type)
      (api : String → String → Option JsonVal → Option Options →
        Except ApiError (ApiResponse D))
      (p1 p2 : ApiRequestParams) (maxRequests : Nat),
      p1.method = p2.method → p1.url = p2.url →
      paginatedApiRequest api p1 maxRequests = paginatedApiRequest api p2 maxRequests) ∧
    (∀ (D : Type)
      (api : String → String → Option JsonVal → Option Options →
        Except ApiError (ApiResponse D))
      (p : ApiRequestParams) (maxRequests : Nat) (ev : PagEvent D),
      ev ∈ paginatedApiRequest api p maxRequests →
      ∀ m u d o, ev = .call m u d o → d = none ∧ o = none) := by
  constructor
  · intro D api p1 p2 maxRequests hm hu
    exact makePagAux_params_eq api (maxRequests - 0) p1 p2 maxRequests 0 hm hu
  · intro D api p maxRequests ev hmem
    exact makePagAux_calls_bare api (maxRequests - 0) p maxRequests 0 ev hmem

/-- Witness for C10: attaching a body and auth credentials to the
paginated request leaves the trace unchanged. -/
theorem paginated_ignores_data_options_witness :
    paginatedApiRequest chainApi5
        { method := "GET", url := "p1", data := some (.obj [("a", .num 1)]),
          options := some { fetchOptions := none,
                            auth := some { apiKey := some "secret", csrfToken := none } } } 3 =
      paginatedApiRequest chainApi5 { method := "GET", url := "p1" } 3 :=
  paginated_ignores_data_options.1 Nat chainApi5 _ _ 3 rfl rfl

/-! ### C2 and C3: action-batch poller -/

theorem pollAux_all_pending
    (check : Nat → Except ApiError (ApiResponse ActionBatchResponse))
    (dur : Nat → Nat) (interval endTime : Nat) (mpe : ApiError)
    (hpend : ∀ k, ∃ r, check k = .ok r ∧
      r.data.status.completed = false ∧ r.data.status.failed = false) :
    ∀ (fuel k now : Nat),
      pollActionBatchAux check dur interval endTime mpe fuel k now = .error (.err mpe) := by
  intro fuel
  induction fuel with
  | zero => intro k now; rfl
  | succ n ih =>
    intro k now
    by_cases h : now ≤ endTime
    · obtain ⟨r, hr, hc, hf⟩ := hpend k
      simp only [pollActionBatchAux, if_pos h, hr, handleActionBatchStatus, hc, hf,
        Bool.false_eq_true, if_false]
      by_cases h2 : now + dur k ≤ endTime
      · simp only [if_pos h2]
        exact ih (k + 1) (now + dur k + interval)
      · simp only [if_neg h2]
        exact ih (k + 1) (now + dur k)
    · simp only [pollActionBatchAux, if_neg h]

/-- C3: when the operation status stays pending on the submission response
and on every poll, the promise rejects with exactly the synthetic envelope
`{errors: ["Your updates have been submitted and are still pending. Try
reloading the page."], ok: false, statusCode: 200, statusText: "max
timeout"}` once the deadline `t0 + maxPollingTime` (default 12000 ms, the
`||` fallback in the source) has passed. -/
theorem batchedApiRequest_timeout_rejects
    (submit : Except ApiError (ApiResponse ActionBatchResponse))
    (check : Nat → Except ApiError (ApiResponse ActionBatchResponse))
    (dur : Nat → Nat) (t0 : Nat) (opts : ActionBatchOptions)
    (hsub : ∃ r, submit = .ok r ∧ r.data.status.completed = false ∧
      r.data.status.failed = false)
    (hpend : ∀ k, ∃ r, check k = .ok r ∧ r.data.status.completed = false ∧
      r.data.status.failed = false) :
    batchedApiRequest submit check dur t0 opts =
      .error (.err
        { errors := ["Your updates have been submitted and are still pending. Try reloading the page."]
          ok := false
          statusCode := 200
          statusText := "max timeout" }) := by
  obtain ⟨r, hr, hc, hf⟩ := hsub
  simp only [batchedApiRequest, hr, handleActionBatchStatus, hc, hf,
    Bool.false_eq_true, if_false]
  unfold pollActionBatch
  rw [pollAux_all_pending check dur _ _ _ hpend]
  rfl

/-- Witness for C3: a permanently pending batch with `maxPollingTime = 1`
rejects with the still-pending message. -/
theorem batchedApiRequest_timeout_rejects_witness :
    batchedApiRequest (.ok batchPendingResp) (fun _ => .ok batchPendingResp) (fun _ => 0) 0
        { maxPollingTime := some 1, interval := none, synchronous := none } =
      .error (.err
        { errors := ["Your updates have been submitted and are still pending. Try reloading the page."]
          ok := false
          statusCode := 200
          statusText := "max timeout" }) :=
  batchedApiRequest_timeout_rejects (.ok batchPendingResp) (fun _ => .ok batchPendingResp)
    (fun _ => 0) 0 _ ⟨batchPendingResp, rfl, rfl, rfl⟩
    (fun _ => ⟨batchPendingResp, rfl, rfl, rfl⟩)

theorem pollAux_skip_pending
    (check : Nat → Except ApiError (ApiResponse ActionBatchResponse))
    (dur : Nat → Nat) (interval endTime : Nat) (mpe : ApiError) :
    ∀ (j fuel k now : Nat),
      (∀ i, i < j → ∃ r, check (k + i) = .ok r ∧
        r.data.status.completed = false ∧ r.data.status.failed = false) →
      now + (∑ i in Finset.range j, (dur (k + i) + interval)) ≤ endTime →
      pollActionBatchAux check dur interval endTime mpe (fuel + j) k now =
        pollActionBatchAux check dur interval endTime mpe fuel (k + j)
          (now + ∑ i in Finset.range j, (dur (k + i) + interval)) := by
  intro j
  induction j with
  | zero =>
    intro fuel k now _ _
    simp
  | succ m ih =>
    intro fuel k now hpend htime
    have hre : ∀ i, i ∈ Finset.range m →
        dur (k + (i + 1)) + interval = dur (k + 1 + i) + interval := by
      intro i _
      rw [show k + (i + 1) = k + 1 + i by omega]
    have hsum : (∑ i in Finset.range (m + 1), (dur (k + i) + interval))
        = (∑ i in Finset.range m, (dur (k + 1 + i) + interval)) + (dur k + interval) := by
      rw [Finset.sum_range_succ']
      rw [Finset.sum_congr rfl hre]
      simp
    have hnow : now ≤ endTime := le_trans (Nat.le_add_right _ _) htime
    obtain ⟨r, hr, hc, hf⟩ := hpend 0 (by omega)
    rw [Nat.add_zero] at hr
    have h2 : now + dur k ≤ endTime := by
      rw [hsum] at htime
      omega
    rw [Nat.add_succ]
    simp only [pollActionBatchAux, if_pos hnow, hr, handleActionBatchStatus, hc, hf,
      Bool.false_eq_true, if_false, if_pos h2]
    have hpend2 : ∀ i, i < m → ∃ r2, check (k + 1 + i) = .ok r2 ∧
        r2.data.status.completed = false ∧ r2.data.status.failed = false := by
      intro i hi
      have hp := hpend (i + 1) (by omega)
      rwa [show k + (i + 1) = k + 1 + i by omega] at hp
    have htime2 : (now + dur k + interval) +
        (∑ i in Finset.range m, (dur (k + 1 + i) + interval)) ≤ endTime := by
      rw [hsum] at htime
      omega
    rw [ih fuel (k + 1) (now + dur k + interval) hpend2 htime2]
    have e1 : k + 1 + m = k + (m + 1) := by omega
    have e2 : now + dur k + interval + (∑ i in Finset.range m, (dur (k + 1 + i) + interval))
        = now + ∑ i in Finset.range (m + 1), (dur (k + i) + interval) := by
      rw [hsum]
      omega
    rw [e1, e2]

theorem jsOrNat_pos (o : Option Nat) (d : Nat) (hd : 1 ≤ d) : 1 ≤ jsOrNat o d := by
  unfold jsOrNat
  rcases o with _ | n
  · exact hd
  · by_cases hn : n = 0 <;> simp [hn] <;> omega

/-- C2: if the operation status returned by the submission POST or by any
later status poll has `failed = true` (and, by the completed/failed
invariant, `completed = false`), the promise rejects with an envelope
whose `errors` is that status's errors array, whose `ok` equals that
status's `completed` flag (false by construction), and whose statusCode
and statusText are copied from the transport response that carried that
status. -/
theorem batchedApiRequest_failed_rejects :
    (∀ (submit : Except ApiError (ApiResponse ActionBatchResponse))
       (check : Nat → Except ApiError (ApiResponse ActionBatchResponse))
       (dur : Nat → Nat) (t0 : Nat) (opts : ActionBatchOptions)
       (r : ApiResponse ActionBatchResponse),
      submit = .ok r → r.data.status.failed = true → r.data.status.completed = false →
      batchedApiRequest submit check dur t0 opts =
        .error (.err
          { errors := r.data.status.errors
            ok := r.data.status.completed
            statusCode := r.statusCode
            statusText := r.statusText })) ∧
    (∀ (submit : Except ApiError (ApiResponse ActionBatchResponse))
       (check : Nat → Except ApiError (ApiResponse ActionBatchResponse))
       (dur : Nat → Nat) (t0 : Nat) (opts : ActionBatchOptions)
       (r0 rk : ApiResponse ActionBatchResponse) (k : Nat),
      submit = .ok r0 → r0.data.status.completed = false → r0.data.status.failed = false →
      (∀ i, i < k → ∃ ri, check i = .ok ri ∧ ri.data.status.completed = false ∧
        ri.data.status.failed = false) →
      check k = .ok rk → rk.data.status.failed = true → rk.data.status.completed = false →
      (∑ i in Finset.range k, (dur i + jsOrNat opts.interval 500))
          ≤ jsOrNat opts.maxPollingTime 12000 →
      batchedApiRequest submit check dur t0 opts =
        .error (.err
          { errors := rk.data.status.errors
            ok := rk.data.status.completed
            statusCode := rk.statusCode
            statusText := rk.statusText })) := by
  constructor
  · intro submit check dur t0 opts r hr hf hc
    simp only [batchedApiRequest, hr, handleActionBatchStatus, hc, hf,
      Bool.false_eq_true, if_false, if_true, makeFailResponseObj]
  · intro submit check dur t0 opts r0 rk k hr0 hc0 hf0 hpend hrk hfk hck hsum
    have hint : 1 ≤ jsOrNat opts.interval 500 := jsOrNat_pos _ _ (by omega)
    have hklempt : k ≤ jsOrNat opts.maxPollingTime 12000 := by
      have hterm : (∑ _i in Finset.range k, jsOrNat opts.interval 500)
          ≤ ∑ i in Finset.range k, (dur i + jsOrNat opts.interval 500) :=
        Finset.sum_le_sum (fun i _ => by omega)
      have hconst : (∑ _i in Finset.range k, jsOrNat opts.interval 500)
          = k * jsOrNat opts.interval 500 := by
        rw [Finset.sum_const, Finset.card_range]
        ring
      nlinarith
    simp only [batchedApiRequest, hr0, handleActionBatchStatus, hc0, hf0,
      Bool.false_eq_true, if_false]
    simp only [pollActionBatch]
    have hfuel : jsOrNat opts.maxPollingTime 12000 + 2
        = (jsOrNat opts.maxPollingTime 12000 + 2 - k) + k := by omega
    rw [hfuel]
    have hpend0 : ∀ i, i < k → ∃ ri, check (0 + i) = .ok ri ∧
        ri.data.status.completed = false ∧ ri.data.status.failed = false := by
      intro i hi
      simpa using hpend i hi
    have htime0 : t0 + (∑ i in Finset.range k, (dur (0 + i) + jsOrNat opts.interval 500))
        ≤ t0 + jsOrNat opts.maxPollingTime 12000 := by
      simpa using Nat.add_le_add_left hsum t0
    rw [pollAux_skip_pending check dur (jsOrNat opts.interval 500)
      (t0 + jsOrNat opts.maxPollingTime 12000) maxPollingErrorObj k
      (jsOrNat opts.maxPollingTime 12000 + 2 - k) 0 t0 hpend0 htime0]
    obtain ⟨f2, hf2⟩ : ∃ f2, jsOrNat opts.maxPollingTime 12000 + 2 - k = f2 + 1 :=
      ⟨jsOrNat opts.maxPollingTime 12000 + 1 - k, by omega⟩
    rw [hf2]
    have hnowk : t0 + (∑ i in Finset.range k, (dur (0 + i) + jsOrNat opts.interval 500))
        ≤ t0 + jsOrNat opts.maxPollingTime 12000 := htime0
    rw [show (0 : Nat) + k = k by omega]
    simp only [pollActionBatchAux, if_pos hnowk, hrk, handleActionBatchStatus, hck, hfk,
      Bool.false_eq_true, if_false, if_true, makeFailResponseObj]

/-- Witness for C2: a submission whose batch status comes back failed. -/
theorem batchedApiRequest_failed_rejects_witness :
    batchedApiRequest (.ok batchFailedResp) (fun _ => .ok batchFailedResp) (fun _ => 0) 0
        { maxPollingTime := none, interval := none, synchronous := none } =
      .error (.err { errors := ["bad action"], ok := false, statusCode := 200,
                     statusText := "OK" }) := by
  have h := batchedApiRequest_failed_rejects.1 (.ok batchFailedResp)
    (fun _ => .ok batchFailedResp) (fun _ => 0) 0
    { maxPollingTime := none, interval := none, synchronous := none }
    batchFailedResp rfl rfl rfl
  exact h.trans rfl

end DashboardApiTools
